import Mathlib

/-!
Verification of the DevEnvAudit scanning/reporting engine against its
specification.  The repository ships `gui_manager.py` (report generation,
sorting, export) together with the unit tests of `scan_logic.py`,
`config_manager.py` and `report_generator.py`; those three modules are not
part of the sources, so their operations are modelled from the
specification (and from the behaviour their unit tests pin down), while
everything from `gui_manager.py` is translated directly.
-/

namespace DevEnvAudit

/-! ## Process Runner (`EnvironmentScanner._run_command`) -/

/-- Outcome of the first `communicate()` call on a spawned process: either the
process finishes within the timeout, or `TimeoutExpired` is raised and a
second, post-kill `communicate()` drains the remaining buffered output. -/
inductive CommOutcome where
  | done (out err : String) (code : Int)
  | timedOut (drainOut drainErr : String)
deriving DecidableEq

/-- A spawned process, abstracted to the observable behaviour of its
`communicate()` calls. -/
structure ProcSpec where
  firstComm : CommOutcome
deriving DecidableEq

/-- What `_run_command` did: the returned triple plus how many times it
killed the process and how many `communicate()` calls it made. -/
structure RunOutcome where
  stdout : String
  stderr : String
  exitCode : Int
  kills : Nat
  commCalls : Nat
deriving DecidableEq

/-- Modelled from the spec: `scan_logic.EnvironmentScanner._run_command` is
not in the sources.  Per §4.1, on normal completion it returns the captured
stdout/stderr and the real exit code; upon timeout the process is forcibly
killed, a second collection pass drains remaining output, stderr is prefixed
with a `TimeoutExpired:` marker followed by the drained stderr, and the exit
code is reported as `-1`.  The function is total: no exception escapes. -/
def run_command (p : ProcSpec) : RunOutcome :=
  match p.firstComm with
  | .done out err code => ⟨out, err, code, 0, 1⟩
  | .timedOut drainOut drainErr =>
      ⟨drainOut, "TimeoutExpired: " ++ drainErr, -1, 1, 2⟩

/-! ## Version comparison (Package-Manager Integrator, spec §4.6) -/

/-- One dot-separated component parses semantically iff it is a nonempty
string of decimal digits. -/
def parseNumComp (cs : List Char) : Option Nat :=
  if cs.isEmpty then none
  else if cs.all Char.isDigit then
    some (cs.foldl (fun acc c => acc * 10 + (c.toNat - 48)) 0)
  else none

/-- Split a character list on `.`. -/
def splitDots : List Char → List (List Char)
  | [] => [[]]
  | c :: rest =>
      let r := splitDots rest
      if c = '.' then [] :: r
      else
        match r with
        | [] => [[c]]
        | h :: t => (c :: h) :: t

/-- Modelled from the spec: the semantic-version parser of the
Package-Manager Integrator (not in the sources).  Per §4.6, a version string
parses semantically iff every dot-separated component is numeric. -/
def parseSemVer (s : String) : Option (List Nat) :=
  let parts := splitDots s.data
  if (parts.map parseNumComp).all Option.isSome then
    some (parts.filterMap parseNumComp)
  else none

/-- Left-to-right numeric comparison of parsed version components (the
Python tuple order: a strict prefix is smaller). -/
def verLt : List Nat → List Nat → Bool
  | [], [] => false
  | [], _ :: _ => true
  | _ :: _, [] => false
  | a :: as, b :: bs => if a < b then true else if b < a then false else verLt as bs

/-- Plain Python string `<` (code-point lexicographic). -/
def charsLt : List Char → List Char → Bool
  | [], [] => false
  | [], _ :: _ => true
  | _ :: _, [] => false
  | a :: as, b :: bs => if a < b then true else if b < a then false else charsLt as bs

/-- Modelled from the spec: the `is_update_available` decision of the
Package-Manager Integrator (not in the sources).  Per §4.6, use the semantic
comparison when both strings parse semantically, otherwise fall back to
plain lexicographic string comparison; true iff latest is strictly greater
than installed. -/
def is_update_available (latest installed : String) : Bool :=
  match parseSemVer latest, parseSemVer installed with
  | some l, some i => verLt i l
  | _, _ => charsLt installed.data latest.data

/-! ## Environment Variable Analyzer (`collect_environment_variables`) -/

/-- An issue attached to an environment variable during analysis. -/
inductive EnvIssue where
  | pathEntryMissing (entry : String)
  | pathEntryDuplicated (entry : String)
  | homePathMissing (name value : String)
deriving DecidableEq

/-- The human-readable text of an environment issue, matching the substrings
asserted by `test_collect_environment_variables`. -/
def EnvIssue.description : EnvIssue → String
  | .pathEntryMissing e => "PATH entry '" ++ e ++ "' does not exist."
  | .pathEntryDuplicated e => "PATH entry '" ++ e ++ "' is duplicated."
  | .homePathMissing n v => "Path '" ++ v ++ "' for '" ++ n ++ "' does not exist."

/-- Split a character list on the platform path separator `:`
(Python `value.split(os.pathsep)`; splitting the empty string yields one
empty entry, as in Python). -/
def splitSep : List Char → List (List Char)
  | [] => [[]]
  | c :: rest =>
      let r := splitSep rest
      if c = ':' then [] :: r
      else
        match r with
        | [] => [[c]]
        | h :: t => (c :: h) :: t

/-- The entries of a path-list variable value. -/
def pathEntries (value : String) : List String :=
  (splitSep value.data).map fun cs => String.mk cs

/-- Modelled from the spec: the path-list analysis of
`scan_logic.collect_environment_variables` (not in the sources).  Per §4.5,
walk the entries in order keeping the set of values seen so far; an entry
that does not exist on disk is flagged `does not exist`, and an entry equal
to an earlier entry of the same variable is flagged `duplicated`. -/
def analyzePathEntries (ex : String → Bool) (seen : List String) :
    List String → List EnvIssue
  | [] => []
  | e :: rest =>
      (if ex e then [] else [.pathEntryMissing e]) ++
      (if seen.contains e then [.pathEntryDuplicated e] else []) ++
      analyzePathEntries ex (e :: seen) rest

/-- A variable is treated as a path-list variable iff it is the search-path
variable itself. -/
def isPathListVar (name : String) : Bool := name = "PATH"

def listBeginsWith : List Char → List Char → Bool
  | [], _ => true
  | _ :: _, [] => false
  | p :: ps, c :: cs => p = c && listBeginsWith ps cs

/-- `s` ends with `pat` (Python `str.endswith`). -/
def strEndsWith (s pat : String) : Bool :=
  listBeginsWith pat.data.reverse s.data.reverse

/-- Modelled from the spec: the home-style variable analysis of
`collect_environment_variables` (not in the sources).  Per §4.5 a variable
whose name follows the `*_HOME` convention and whose value is non-empty is
flagged when the referenced path does not exist on disk
(`test_collect_environment_variables` pins the check to `os.path.exists`);
an empty value generates no existence issue. -/
def analyzeHomeVar (ex : String → Bool) (name value : String) : List EnvIssue :=
  if value = "" then []
  else if ex value then []
  else [.homePathMissing name value]

/-- One environment variable snapshot (spec §3). -/
structure EnvironmentVariableInfo where
  name : String
  value : String
  scope : String
  issues : List EnvIssue
deriving DecidableEq

/-- Modelled from the spec: the per-variable step of
`collect_environment_variables` (not in the sources).  Every variable is
recorded; path-list and `*_HOME` variables get their special analysis. -/
def mkEnvVarInfo (ex : String → Bool) (nv : String × String) :
    EnvironmentVariableInfo :=
  { name := nv.1
    value := nv.2
    scope := "active_session"
    issues :=
      if isPathListVar nv.1 then analyzePathEntries ex [] (pathEntries nv.2)
      else if strEndsWith nv.1 "_HOME" then analyzeHomeVar ex nv.1 nv.2
      else [] }

/-- Modelled from the spec: `collect_environment_variables` enumerates all
variables of the current process environment and produces one
`EnvironmentVariableInfo` per variable (spec §4.5). -/
def collect_environment_variables (ex : String → Bool)
    (env : List (String × String)) : List EnvironmentVariableInfo :=
  env.map (mkEnvVarInfo ex)

/-! ### Counting lemmas for the path-list analysis -/

theorem count_pathEntryMissing (ex : String → Bool) (e : String) :
    ∀ (entries : List String) (seen : List String),
      (analyzePathEntries ex seen entries).count (.pathEntryMissing e)
        = if ex e then 0 else entries.count e := by
  intro entries
  induction entries with
  | nil => intro seen; simp [analyzePathEntries, List.count_nil]
  | cons a rest ih =>
      intro seen
      simp only [analyzePathEntries, List.count_append, ih]
      by_cases hae : a = e
      · subst hae
        rcases h : ex a with _ | _ <;> by_cases hseen : a ∈ seen <;>
          simp [h, hseen, List.count_cons, List.count_singleton]
        all_goals omega
      · have h1 : (EnvIssue.pathEntryMissing a) ≠ (EnvIssue.pathEntryMissing e) := by
          simp [hae]
        have h2 : (EnvIssue.pathEntryDuplicated a) ≠ (EnvIssue.pathEntryMissing e) := by
          simp
        rcases h : ex a with _ | _ <;> by_cases hseen : a ∈ seen <;>
          simp [List.count_cons, h1, h2, Ne.symm hae, hseen]

theorem count_pathEntryDuplicated (ex : String → Bool) (e : String) :
    ∀ (entries : List String) (seen : List String),
      (analyzePathEntries ex seen entries).count (.pathEntryDuplicated e)
        = if seen.contains e then entries.count e else entries.count e - 1 := by
  intro entries
  induction entries with
  | nil => intro seen; simp [analyzePathEntries, List.count_nil]
  | cons a rest ih =>
      intro seen
      simp only [analyzePathEntries, List.count_append, ih]
      by_cases hae : a = e
      · subst hae
        rcases h : ex a with _ | _ <;> by_cases hseen : a ∈ seen <;>
          simp [h, hseen, List.count_cons, List.count_singleton,
            Nat.succ_sub_one]
        all_goals omega
      · have h1 : (EnvIssue.pathEntryMissing a) ≠ (EnvIssue.pathEntryDuplicated e) := by
          simp
        have h2 : (EnvIssue.pathEntryDuplicated a) ≠ (EnvIssue.pathEntryDuplicated e) := by
          simp [hae]
        have hmem : e ∈ a :: seen ↔ e ∈ seen := by
          simp [Ne.symm hae]
        rcases h : ex a with _ | _ <;> by_cases hseen : a ∈ seen <;>
          simp [List.count_cons, h1, h2, Ne.symm hae, hseen, hmem]

/-! ## Executable Locator (`EnvironmentScanner._find_executable_in_path`) -/

/-- The filesystem facts the locator consults: whether a path is a regular
file, whether it is executable by the current user, and symlink
resolution to a canonical absolute path. -/
structure FSModel where
  isFile : String → Bool
  isExec : String → Bool
  resolveLink : String → String

/-- `<dir>/<name>` as probed by the locator. -/
def joinPath (dir name : String) : String := dir ++ "/" ++ name

/-- Modelled from the spec: the PATH walk of
`EnvironmentScanner._find_executable_in_path` (not in the sources).  Per
§4.2, the directories are tested in order; the first `<dir>/<name>` that is
a regular file and executable is resolved through symlinks and returned,
and no directory matching yields not-found.  The second result component
counts the filesystem probes made (`is_file`, then `os.access` only when
the file test succeeds, then `resolve`), mirroring the mock-call counting
of `test_find_executable_in_path`. -/
def searchPathDirs (fs : FSModel) (name : String) :
    List String → Option String × Nat
  | [] => (none, 0)
  | d :: rest =>
      let p := joinPath d name
      if fs.isFile p then
        if fs.isExec p then (some (fs.resolveLink p), 3)
        else
          let r := searchPathDirs fs name rest
          (r.1, r.2 + 2)
      else
        let r := searchPathDirs fs name rest
        (r.1, r.2 + 1)

/-- The memoization cache: executable name to cached result, including
cached not-found results. -/
def cacheFind : List (String × Option String) → String → Option (Option String)
  | [], _ => none
  | (k, v) :: rest, n => if k = n then some v else cacheFind rest n

/-- Result of one locator call: the resolved path (or not-found), the cache
afterwards, and how many filesystem probes the call made. -/
structure LookupOut where
  result : Option String
  cache : List (String × Option String)
  probes : Nat
deriving DecidableEq

/-- Modelled from the spec: `_find_executable_in_path` (not in the
sources).  Per §4.2, a cached name (found or not-found) is answered from
the cache without touching the filesystem; otherwise the PATH directories
are searched in order and the result is memoized under the name. -/
def find_executable_in_path (fs : FSModel) (dirs : List String)
    (cache : List (String × Option String)) (name : String) : LookupOut :=
  match cacheFind cache name with
  | some r => ⟨r, cache, 0⟩
  | none =>
      let r := searchPathDirs fs name dirs
      ⟨r.1, (name, r.1) :: cache, r.2⟩

/-- The search result is first-match semantics over the ordered PATH
directories, with the match resolved through symlinks. -/
theorem searchPathDirs_eq_findFirst (fs : FSModel) (name : String) :
    ∀ dirs : List String,
      (searchPathDirs fs name dirs).1 =
        (dirs.find? fun d =>
            fs.isFile (joinPath d name) && fs.isExec (joinPath d name)).map
          fun d => fs.resolveLink (joinPath d name) := by
  intro dirs
  induction dirs with
  | nil => simp [searchPathDirs]
  | cons d rest ih =>
      rcases hf : fs.isFile (joinPath d name) with _ | _ <;>
        rcases hx : fs.isExec (joinPath d name) with _ | _ <;>
          simp [searchPathDirs, List.find?_cons, hf, hx, ih]

/-- The on-disk situation mocked by `test_collect_environment_variables`:
exactly `/fake/bin`, `/duplicate/path` and `/fake/home` exist. -/
def envExC (s : String) : Bool :=
  s = "/fake/bin" || s = "/duplicate/path" || s = "/fake/home"

/-! ## Tool identification (`EnvironmentScanner.identify_tools`) -/

/-- One tool-catalog entry, restricted to the candidate executables for the
current OS (spec §3, Tool Catalog Entry). -/
structure ToolEntry where
  id : String
  name : String
  category : String
  executables : List String
  version_args : List String
  version_regex : String
deriving DecidableEq

/-- One discovered tool instance (spec §3, DetectedComponent); `category`
and `matched_db_name` are nullable, as the Categorizer may find no match. -/
structure DetectedComponent where
  id : String
  name : String
  category : Option String
  version : String
  path : String
  executable_path : String
  matched_db_name : Option String
deriving DecidableEq

/-- Modelled from the spec: `EnvironmentScanner.identify_tools` (not in the
sources).  Per §4.7, for each catalog entry applicable to the current OS
and each candidate executable name: resolve it through the Executable
Locator; if found, extract the version, ask the Categorizer, and construct
a DetectedComponent; an unresolvable candidate produces nothing.  The three
collaborators are passed as functions, exactly as
`test_identify_tools_python_example` mocks them. -/
def identify_tools (findExe : String → Option String)
    (getVersion : String → List String → String → String)
    (categorize : String → String → Option String × Option String)
    (db : List ToolEntry) : List DetectedComponent :=
  db.flatMap fun entry =>
    entry.executables.filterMap fun exeName =>
      match findExe exeName with
      | none => none
      | some p =>
          let ver := getVersion p entry.version_args entry.version_regex
          let cat := categorize entry.name p
          some
            { id := entry.id
              name := entry.name
              category := cat.1
              version := ver
              path := p
              executable_path := p
              matched_db_name := cat.2 }

/-! ### Version extraction for the pattern `Python\s+([0-9.]+)` -/

def isVerChar (c : Char) : Bool := c.isDigit || c = '.'

def isWsChar (c : Char) : Bool :=
  c = ' ' || c = '\t' || c = '\n' || c = '\r' || c = '\x0b' || c = '\x0c'

/-- Try the pattern `Python\s+([0-9.]+)` anchored at the head of `s`,
returning the first capture group. -/
def matchPyAt (s : List Char) : Option (List Char) :=
  if listBeginsWith "Python".data s then
    let rest := s.drop 6
    if (rest.takeWhile isWsChar).isEmpty then none
    else
      let cap := (rest.dropWhile isWsChar).takeWhile isVerChar
      if cap.isEmpty then none else some cap
  else none

/-- `re.search` semantics: try successive start positions left to right. -/
def searchPy : List Char → Option (List Char)
  | [] => none
  | c :: t =>
      match matchPyAt (c :: t) with
      | some r => some r
      | none => searchPy t

/-- First capture group of the first match of `Python\s+([0-9.]+)`. -/
def extractPyVersion (out : String) : Option String :=
  (searchPy out.data).map fun cs => String.mk cs

/-- Modelled from the spec: `EnvironmentScanner._get_version_from_command`
(not in the sources).  Per §4.3 and `test_get_version_from_command_success`:
short-circuit to "unknown" when the executable path does not exist, run the
version command, and extract the version via the first matching capture
group of the pattern, degrading to "unknown" on no match. -/
def get_version_from_command (pathExists : Bool) (runResult : String × String × Int)
    (extract : String → Option String) : String :=
  if pathExists then
    match extract runResult.1 with
    | some v => v
    | none => "unknown"
  else "unknown"

/-- The catalog entry of the python scenario (spec §8). -/
def pythonEntry : ToolEntry :=
  { id := "python"
    name := "Python"
    category := "Language"
    executables := ["python3"]
    version_args := ["--version"]
    version_regex := "Python\\s+([0-9.]+)" }

/-! ## Report generation (`gui_manager.ReportGenerator` / `gui_manager.ScanData`) -/

/-- A single diagnostic finding (spec §3), as consumed by
`gui_manager.py`. -/
structure ScanIssue where
  description : String
  severity : String
  category : String
  component_id : Option String
  related_path : Option String
deriving DecidableEq

/-- Insert `a` into `l` in front of the first element whose key is not
smaller; folding a list right-to-left through this reproduces exactly the
stable order of Python's `sorted`. -/
def insertStable {α : Type} (le : α → α → Bool) (a : α) : List α → List α
  | [] => [a]
  | b :: l => if le a b then a :: b :: l else b :: insertStable le a l

/-- The Boolean key comparison used by the stable sort. -/
def keyLe {α κ : Type} [LinearOrder κ] (key : α → κ) (a b : α) : Bool :=
  decide (key a ≤ key b)

/-- Python `sorted(l, key=key)`: a stable sort of `l` by `key`. -/
def pySorted {α κ : Type} [LinearOrder κ] (key : α → κ) (l : List α) : List α :=
  l.foldr (insertStable (keyLe key)) []

/-- Python `<` on the component sort-key tuples `(category, name, version)`
of `ReportGenerator.__init__` (gui_manager.py line 28).  Python tuple
comparison skips equal components with `==` and applies `<` at the first
difference; `None == None` holds, so two absent categories fall through to
`(name, version)`, but comparing two distinct categories of which either is
`None` raises `TypeError` — modelled as `.error ()`. -/
def componentKeyLt (x y : DetectedComponent) : Except Unit Bool :=
  if x.category = y.category then
    .ok (decide (toLex (x.name, x.version) < toLex (y.name, y.version)))
  else
    match x.category, y.category with
    | some a, some b => .ok (decide (a < b))
    | _, _ => .error ()

/-- Stable insertion with a partial strict comparison: walk past the
elements strictly smaller than `a` and place `a` in front of the first
element that is not (so ties keep production order); a failing comparison
propagates, as Python's sort lets the `TypeError` escape. -/
def insertStableP {α : Type} (lt : α → α → Except Unit Bool) (a : α) :
    List α → Except Unit (List α)
  | [] => .ok [a]
  | b :: l =>
      match lt b a with
      | .error e => .error e
      | .ok true =>
          match insertStableP lt a l with
          | .error e => .error e
          | .ok r => .ok (b :: r)
      | .ok false => .ok (a :: b :: l)

/-- Python `sorted` with a partial comparison: a stable sort that
propagates a `TypeError` raised by any element comparison.  Any correct
comparison sort must compare across every incomparable pair's boundary, so
succeeding or raising agrees with CPython's Timsort even though the exact
comparison order differs. -/
def pySortedP {α : Type} (lt : α → α → Except Unit Bool) :
    List α → Except Unit (List α)
  | [] => .ok []
  | x :: l =>
      match pySortedP lt l with
      | .error e => .error e
      | .ok r => insertStableP lt x r

/-- Sort key of `ReportGenerator.__init__` for environment variables:
`x.name`. -/
def envVarKey (ev : EnvironmentVariableInfo) : String := ev.name

/-- Sort key of `ReportGenerator.__init__` for issues:
`(x.severity, x.category, x.description)`, compared as a Python tuple. -/
def issueKey (i : ScanIssue) : String ×ₗ (String ×ₗ String) :=
  toLex (i.severity, toLex (i.category, i.description))

/-- The list-holding state of a `ReportGenerator`. -/
structure ReportGeneratorState where
  detected_components : List DetectedComponent
  environment_variables : List EnvironmentVariableInfo
  issues : List ScanIssue
deriving DecidableEq

/-- `gui_manager.ReportGenerator.__init__` (gui_manager.py lines 23–36):
the three lists are sorted on construction with Python `sorted` and the
keys above.  The component sort compares the raw `(category, name,
version)` tuples and is run first (line 27), so a `TypeError` from a
`None` category mixed with string categories aborts construction. -/
def mkReportGenerator (detected_components : List DetectedComponent)
    (environment_variables : List EnvironmentVariableInfo)
    (issues : List ScanIssue) : Except Unit ReportGeneratorState :=
  match pySortedP componentKeyLt detected_components with
  | .error e => .error e
  | .ok sortedComps =>
      .ok { detected_components := sortedComps
            environment_variables := pySorted envVarKey environment_variables
            issues := pySorted issueKey issues }

/-- The list-holding state of a `ScanData`. -/
structure ScanDataState where
  detected_components : List DetectedComponent
  environment_variables : List EnvironmentVariableInfo
  issues : List ScanIssue
deriving DecidableEq

/-- `gui_manager.ScanData.__init__` (gui_manager.py lines 375–391): the
same three sorts, with the same `TypeError` path. -/
def mkScanData (detected_components : List DetectedComponent)
    (environment_variables : List EnvironmentVariableInfo)
    (issues : List ScanIssue) : Except Unit ScanDataState :=
  match pySortedP componentKeyLt detected_components with
  | .error e => .error e
  | .ok sortedComps =>
      .ok { detected_components := sortedComps
            environment_variables := pySorted envVarKey environment_variables
            issues := pySorted issueKey issues }

/-! ### Stable-sort lemmas -/

theorem mem_insertStable {α : Type} (le : α → α → Bool) (a x : α) :
    ∀ l, x ∈ insertStable le a l ↔ x = a ∨ x ∈ l := by
  intro l
  induction l with
  | nil => simp [insertStable]
  | cons b t ih =>
      by_cases h : le a b = true
      · simp [insertStable, h]
      · simp only [insertStable, h, if_false, Bool.false_eq_true, List.mem_cons, ih]
        tauto

theorem perm_insertStable {α : Type} (le : α → α → Bool) (a : α) :
    ∀ l, (insertStable le a l).Perm (a :: l) := by
  intro l
  induction l with
  | nil => simp [insertStable]
  | cons b t ih =>
      by_cases h : le a b = true
      · simp [insertStable, h]
      · simp only [insertStable, h, if_false, Bool.false_eq_true]
        exact (ih.cons b).trans (List.Perm.swap a b t)

theorem perm_pySorted {α κ : Type} [LinearOrder κ] (key : α → κ) :
    ∀ l : List α, (pySorted key l).Perm l := by
  intro l
  induction l with
  | nil => simp [pySorted]
  | cons x t ih =>
      have hx : pySorted key (x :: t) = insertStable (keyLe key) x (pySorted key t) := rfl
      rw [hx]
      exact (perm_insertStable (keyLe key) x (pySorted key t)).trans (ih.cons x)

theorem pairwise_insertStable {α κ : Type} [LinearOrder κ] (key : α → κ) (a : α) :
    ∀ l, l.Pairwise (fun x y => key x ≤ key y) →
      (insertStable (keyLe key) a l).Pairwise (fun x y => key x ≤ key y) := by
  intro l
  induction l with
  | nil => intro _; simp [insertStable]
  | cons b t ih =>
      intro hp
      rcases List.pairwise_cons.mp hp with ⟨hb, ht⟩
      by_cases h : keyLe key a b = true
      · have hab : key a ≤ key b := of_decide_eq_true h
        simp only [insertStable, h, if_true]
        refine List.Pairwise.cons ?_ hp
        intro x hx
        rcases List.mem_cons.mp hx with rfl | hx
        · exact hab
        · exact hab.trans (hb x hx)
      · have hba : key b ≤ key a :=
          le_of_not_le fun hc => h (decide_eq_true hc)
        simp only [insertStable, h, if_false, Bool.false_eq_true]
        refine List.Pairwise.cons ?_ (ih ht)
        intro x hx
        rcases (mem_insertStable (keyLe key) a x t).mp hx with rfl | hx
        · exact hba
        · exact hb x hx

theorem sorted_pySorted {α κ : Type} [LinearOrder κ] (key : α → κ) :
    ∀ l : List α, (pySorted key l).Pairwise (fun x y => key x ≤ key y) := by
  intro l
  induction l with
  | nil => simp [pySorted]
  | cons x t ih =>
      have hx : pySorted key (x :: t) = insertStable (keyLe key) x (pySorted key t) := rfl
      rw [hx]
      exact pairwise_insertStable key x (pySorted key t) ih

/-- On lists whose sort keys are pairwise distinct, the stable sort is
independent of the input order. -/
theorem pySorted_eq_of_perm {α κ : Type} [LinearOrder κ] (key : α → κ)
    {l₁ l₂ : List α} (hp : l₁.Perm l₂)
    (hd : l₁.Pairwise fun a b => key a ≠ key b) :
    pySorted key l₁ = pySorted key l₂ := by
  have hperm : (pySorted key l₁).Perm (pySorted key l₂) :=
    (perm_pySorted key l₁).trans (hp.trans (perm_pySorted key l₂).symm)
  have hd₁ : (pySorted key l₁).Pairwise (fun a b => key a ≠ key b) :=
    ((perm_pySorted key l₁).pairwise_iff fun h => Ne.symm h).mpr hd
  have hd₂ : (pySorted key l₂).Pairwise (fun a b => key a ≠ key b) :=
    ((perm_pySorted key l₂).pairwise_iff fun h => Ne.symm h).mpr
      ((hp.pairwise_iff fun h => Ne.symm h).mp hd)
  have hstrict₁ : (pySorted key l₁).Pairwise (fun a b => key a < key b) :=
    ((sorted_pySorted key l₁).and hd₁).imp fun h => lt_of_le_of_ne h.1 h.2
  have hstrict₂ : (pySorted key l₂).Pairwise (fun a b => key a < key b) :=
    ((sorted_pySorted key l₂).and hd₂).imp fun h => lt_of_le_of_ne h.1 h.2
  haveI : IsAntisymm α fun a b => key a < key b :=
    ⟨fun a b h1 h2 => absurd (h1.trans h2) (lt_irrefl _)⟩
  exact List.eq_of_perm_of_sorted hperm hstrict₁ hstrict₂

/-! ### The partial component sort: success, failure and bridging -/

/-- When every comparison made against `a` succeeds and agrees with a total
key, the partial insertion coincides with the total one. -/
theorem insertStableP_eq {α κ : Type} [LinearOrder κ] (key : α → κ)
    (lt : α → α → Except Unit Bool) (a : α) :
    ∀ r, (∀ b ∈ r, lt b a = .ok (decide (key b < key a))) →
      insertStableP lt a r = .ok (insertStable (keyLe key) a r) := by
  intro r
  induction r with
  | nil => intro _; rfl
  | cons b l ih =>
      intro hm
      have hb : lt b a = .ok (decide (key b < key a)) := hm b (by simp)
      by_cases h : key b < key a
      · have h1 : lt b a = .ok true := by rw [hb]; simp [h]
        have h2 : keyLe key a b = false := decide_eq_false (not_le.mpr h)
        have h3 := ih fun c hc => hm c (List.mem_cons_of_mem b hc)
        simp [insertStableP, h1, h3, insertStable, h2]
      · have h1 : lt b a = .ok false := by rw [hb]; simp [h]
        have h2 : keyLe key a b = true := decide_eq_true (le_of_not_lt h)
        simp [insertStableP, h1, insertStable, h2]

/-- When every comparison within `l` succeeds and agrees with a total key,
the partial sort succeeds and coincides with the total stable sort. -/
theorem pySortedP_eq_pySorted {α κ : Type} [LinearOrder κ] (key : α → κ)
    (lt : α → α → Except Unit Bool) :
    ∀ l, (∀ a ∈ l, ∀ b ∈ l, lt a b = .ok (decide (key a < key b))) →
      pySortedP lt l = .ok (pySorted key l) := by
  intro l
  induction l with
  | nil => intro _; rfl
  | cons x t ih =>
      intro hm
      have ht : pySortedP lt t = .ok (pySorted key t) :=
        ih fun a ha b hb =>
          hm a (List.mem_cons_of_mem x ha) b (List.mem_cons_of_mem x hb)
      have hins : insertStableP lt x (pySorted key t)
          = .ok (insertStable (keyLe key) x (pySorted key t)) := by
        apply insertStableP_eq
        intro b hb
        have hbt : b ∈ t := (perm_pySorted key t).subset hb
        exact hm b (List.mem_cons_of_mem x hbt) x (List.mem_cons_self x t)
      calc pySortedP lt (x :: t)
          = match pySortedP lt t with
            | .error e => .error e
            | .ok r => insertStableP lt x r := rfl
        _ = insertStableP lt x (pySorted key t) := by rw [ht]
        _ = .ok (insertStable (keyLe key) x (pySorted key t)) := hins
        _ = .ok (pySorted key (x :: t)) := rfl

/-- The component sort key when every category is a string. -/
def componentKeySome (c : DetectedComponent) : String ×ₗ (String ×ₗ String) :=
  toLex (c.category.getD "", toLex (c.name, c.version))

/-- The component sort key when every category is `None` (the categories
compare equal, so the tuple comparison moves on to `(name, version)`). -/
def componentKeyNone (c : DetectedComponent) : String ×ₗ String :=
  toLex (c.name, c.version)

theorem componentKeyLt_allSome {a b : DetectedComponent}
    (ha : a.category.isSome) (hb : b.category.isSome) :
    componentKeyLt a b
      = .ok (decide (componentKeySome a < componentKeySome b)) := by
  rcases Option.isSome_iff_exists.mp ha with ⟨sa, hsa⟩
  rcases Option.isSome_iff_exists.mp hb with ⟨sb, hsb⟩
  have hks : componentKeySome a = toLex (sa, toLex (a.name, a.version)) := by
    simp [componentKeySome, hsa]
  have hkb : componentKeySome b = toLex (sb, toLex (b.name, b.version)) := by
    simp [componentKeySome, hsb]
  by_cases hcat : sa = sb
  · subst hcat
    have hc : a.category = b.category := by rw [hsa, hsb]
    have hiff : (toLex (a.name, a.version) < toLex (b.name, b.version))
        ↔ componentKeySome a < componentKeySome b := by
      rw [hks, hkb]
      constructor
      · intro h
        exact (Prod.Lex.lt_iff _ _).mpr (Or.inr ⟨rfl, h⟩)
      · intro h
        rcases (Prod.Lex.lt_iff _ _).mp h with h1 | ⟨_, h2⟩
        · exact absurd h1 (lt_irrefl sa)
        · exact h2
    have hstep : componentKeyLt a b
        = .ok (decide (toLex (a.name, a.version) < toLex (b.name, b.version))) := by
      unfold componentKeyLt
      rw [if_pos hc]
    rw [hstep, decide_eq_decide.mpr hiff]
  · have hc : ¬ a.category = b.category := by
      rw [hsa, hsb]
      simp [hcat]
    have hiff : (sa < sb) ↔ componentKeySome a < componentKeySome b := by
      rw [hks, hkb]
      constructor
      · intro h
        exact (Prod.Lex.lt_iff _ _).mpr (Or.inl h)
      · intro h
        rcases (Prod.Lex.lt_iff _ _).mp h with h1 | ⟨h1, _⟩
        · exact h1
        · exact absurd h1 hcat
    have hstep : componentKeyLt a b = .ok (decide (sa < sb)) := by
      unfold componentKeyLt
      rw [if_neg hc, hsa, hsb]
    rw [hstep, decide_eq_decide.mpr hiff]

theorem componentKeyLt_allNone {a b : DetectedComponent}
    (ha : a.category = none) (hb : b.category = none) :
    componentKeyLt a b
      = .ok (decide (componentKeyNone a < componentKeyNone b)) := by
  have hc : a.category = b.category := by rw [ha, hb]
  simp [componentKeyLt, hc, componentKeyNone]

theorem pySortedP_ok_allSome (l : List DetectedComponent)
    (h : ∀ c ∈ l, c.category.isSome) :
    pySortedP componentKeyLt l = .ok (pySorted componentKeySome l) :=
  pySortedP_eq_pySorted componentKeySome componentKeyLt l
    fun a ha b hb => componentKeyLt_allSome (h a ha) (h b hb)

theorem pySortedP_ok_allNone (l : List DetectedComponent)
    (h : ∀ c ∈ l, c.category = none) :
    pySortedP componentKeyLt l = .ok (pySorted componentKeyNone l) :=
  pySortedP_eq_pySorted componentKeyNone componentKeyLt l
    fun a ha b hb => componentKeyLt_allNone (h a ha) (h b hb)

/-- A list mixing a `None` category with a string category makes the
component sort raise: the sort must compare some pair across the boundary,
and that comparison is a `TypeError`. -/
theorem pySortedP_error_of_mixed :
    ∀ l : List DetectedComponent, (∃ u ∈ l, u.category = none) →
      (∃ v ∈ l, v.category.isSome) →
      pySortedP componentKeyLt l = .error () := by
  intro l
  induction l with
  | nil =>
      rintro ⟨u, hu, _⟩ _
      exact absurd hu (List.not_mem_nil u)
  | cons x t ih =>
      rintro ⟨u, hu, hunone⟩ ⟨v, hv, hvsome⟩
      rcases hx : x.category with _ | s
      · have hvt : v ∈ t := by
          rcases List.mem_cons.mp hv with rfl | hmem
          · rw [hx] at hvsome; exact absurd hvsome (by simp)
          · exact hmem
        by_cases hnt : ∃ w ∈ t, w.category = none
        · have herr := ih hnt ⟨v, hvt, hvsome⟩
          simp [pySortedP, herr]
        · push_neg at hnt
          have hall : ∀ c ∈ t, c.category.isSome := fun c hc =>
            Option.ne_none_iff_isSome.mp (hnt c hc)
          have hok := pySortedP_ok_allSome t hall
          rcases hr : pySorted componentKeySome t with _ | ⟨b, r2⟩
          · have ht : t = [] := by
              have hp := perm_pySorted componentKeySome t
              rw [hr] at hp
              exact (hp.symm).eq_nil
            rw [ht] at hvt
            exact absurd hvt (List.not_mem_nil v)
          · have hbt : b ∈ t := by
              have hp := perm_pySorted componentKeySome t
              rw [hr] at hp
              exact hp.subset (List.mem_cons_self b r2)
            rcases Option.isSome_iff_exists.mp (hall b hbt) with ⟨sb, hsb⟩
            have hlt : componentKeyLt b x = .error () := by
              simp [componentKeyLt, hsb, hx]
            simp [pySortedP, hok, hr, insertStableP, hlt]
      · have hut : u ∈ t := by
          rcases List.mem_cons.mp hu with rfl | hmem
          · rw [hx] at hunone; exact absurd hunone (by simp)
          · exact hmem
        by_cases hst : ∃ w ∈ t, w.category.isSome
        · have herr := ih ⟨u, hut, hunone⟩ hst
          simp [pySortedP, herr]
        · push_neg at hst
          have hall : ∀ c ∈ t, c.category = none := fun c hc =>
            Option.not_isSome_iff_eq_none.mp (hst c hc)
          have hok := pySortedP_ok_allNone t hall
          rcases hr : pySorted componentKeyNone t with _ | ⟨b, r2⟩
          · have ht : t = [] := by
              have hp := perm_pySorted componentKeyNone t
              rw [hr] at hp
              exact (hp.symm).eq_nil
            rw [ht] at hut
            exact absurd hut (List.not_mem_nil u)
          · have hbt : b ∈ t := by
              have hp := perm_pySorted componentKeyNone t
              rw [hr] at hp
              exact hp.subset (List.mem_cons_self b r2)
            have hbnone := hall b hbt
            have hlt : componentKeyLt b x = .error () := by
              simp [componentKeyLt, hbnone, hx]
            simp [pySortedP, hok, hr, insertStableP, hlt]

/-- Distinctness of the full component sort-key tuples. -/
def compKeyDistinct (a b : DetectedComponent) : Prop :=
  ¬(a.category = b.category ∧ a.name = b.name ∧ a.version = b.version)

/-- The partial component sort is input-order independent on lists with
pairwise distinct key tuples: on mixed lists both orders raise, on
homogeneous lists both orders succeed with the same sorted list. -/
theorem pySortedP_eq_of_perm {l₁ l₂ : List DetectedComponent}
    (hp : l₁.Perm l₂) (hd : l₁.Pairwise compKeyDistinct) :
    pySortedP componentKeyLt l₁ = pySortedP componentKeyLt l₂ := by
  by_cases hnone : ∃ u ∈ l₁, u.category = none
  · by_cases hsome : ∃ v ∈ l₁, v.category.isSome
    · rcases hnone with ⟨u, hu, hu2⟩
      rcases hsome with ⟨v, hv, hv2⟩
      rw [pySortedP_error_of_mixed l₁ ⟨u, hu, hu2⟩ ⟨v, hv, hv2⟩,
        pySortedP_error_of_mixed l₂ ⟨u, hp.subset hu, hu2⟩ ⟨v, hp.subset hv, hv2⟩]
    · push_neg at hsome
      have hall₁ : ∀ c ∈ l₁, c.category = none := fun c hc =>
        Option.not_isSome_iff_eq_none.mp (hsome c hc)
      have hall₂ : ∀ c ∈ l₂, c.category = none := fun c hc =>
        hall₁ c (hp.symm.subset hc)
      rw [pySortedP_ok_allNone l₁ hall₁, pySortedP_ok_allNone l₂ hall₂]
      have hd2 : l₁.Pairwise fun a b => componentKeyNone a ≠ componentKeyNone b := by
        refine hd.imp_of_mem ?_
        intro a b hma hmb hab hkey
        have h0 := congrArg ofLex hkey
        exact hab ⟨(hall₁ a hma).trans (hall₁ b hmb).symm,
          congrArg Prod.fst h0, congrArg Prod.snd h0⟩
      rw [pySorted_eq_of_perm componentKeyNone hp hd2]
  · push_neg at hnone
    have hall₁ : ∀ c ∈ l₁, c.category.isSome := fun c hc =>
      Option.ne_none_iff_isSome.mp (hnone c hc)
    have hall₂ : ∀ c ∈ l₂, c.category.isSome := fun c hc =>
      hall₁ c (hp.symm.subset hc)
    rw [pySortedP_ok_allSome l₁ hall₁, pySortedP_ok_allSome l₂ hall₂]
    have hd2 : l₁.Pairwise fun a b => componentKeySome a ≠ componentKeySome b := by
      refine hd.imp_of_mem ?_
      intro a b hma hmb hab hkey
      rcases Option.isSome_iff_exists.mp (hall₁ a hma) with ⟨sa, hsa⟩
      rcases Option.isSome_iff_exists.mp (hall₁ b hmb) with ⟨sb, hsb⟩
      have h0 := congrArg ofLex hkey
      have hcat : a.category.getD "" = b.category.getD "" := congrArg Prod.fst h0
      have h1 := congrArg ofLex (congrArg Prod.snd h0)
      rw [hsa, hsb] at hcat
      have hcat2 : sa = sb := by simpa using hcat
      refine hab ⟨by rw [hsa, hsb, hcat2], congrArg Prod.fst h1,
        congrArg Prod.snd h1⟩
    rw [pySorted_eq_of_perm componentKeySome hp hd2]

/-- A partial-sort success is a sorted permutation of the input, with
sortedness phrased through the source's own comparison: no element is
strictly less than one placed before it. -/
theorem pySortedP_ok_spec (comps r : List DetectedComponent)
    (h : pySortedP componentKeyLt comps = .ok r) :
    r.Perm comps ∧ r.Pairwise fun a b => componentKeyLt b a = .ok false := by
  by_cases hnone : ∃ u ∈ comps, u.category = none
  · by_cases hsome : ∃ v ∈ comps, v.category.isSome
    · rw [pySortedP_error_of_mixed comps hnone hsome] at h
      exact absurd h (by simp)
    · push_neg at hsome
      have hall : ∀ c ∈ comps, c.category = none := fun c hc =>
        Option.not_isSome_iff_eq_none.mp (hsome c hc)
      rw [pySortedP_ok_allNone comps hall] at h
      have hr : r = pySorted componentKeyNone comps := (Except.ok.inj h).symm
      subst hr
      refine ⟨perm_pySorted componentKeyNone comps, ?_⟩
      refine (sorted_pySorted componentKeyNone comps).imp_of_mem ?_
      intro a b hma hmb hle
      have hma2 := (perm_pySorted componentKeyNone comps).subset hma
      have hmb2 := (perm_pySorted componentKeyNone comps).subset hmb
      rw [componentKeyLt_allNone (hall b hmb2) (hall a hma2)]
      simp [not_lt.mpr hle]
  · push_neg at hnone
    have hall : ∀ c ∈ comps, c.category.isSome := fun c hc =>
      Option.ne_none_iff_isSome.mp (hnone c hc)
    rw [pySortedP_ok_allSome comps hall] at h
    have hr : r = pySorted componentKeySome comps := (Except.ok.inj h).symm
    subst hr
    refine ⟨perm_pySorted componentKeySome comps, ?_⟩
    refine (sorted_pySorted componentKeySome comps).imp_of_mem ?_
    intro a b hma hmb hle
    have hma2 := (perm_pySorted componentKeySome comps).subset hma
    have hmb2 := (perm_pySorted componentKeySome comps).subset hmb
    rw [componentKeyLt_allSome (hall b hmb2) (hall a hma2)]
    simp [not_lt.mpr hle]

/-! ### Environment-variable formatting (`ReportGenerator._format_env_var`) -/

/-- The report output formats of `gui_manager.py` (`format_type`). -/
inductive Fmt where
  | txt
  | md
  | html
  | json
deriving DecidableEq

/-- `val_display` of `ReportGenerator._format_env_var` (gui_manager.py
lines 137–139): values longer than 200 characters are truncated to a
200-character slice plus `...`, for every format except `json`. -/
def valDisplay (fmt : Fmt) (value : String) : String :=
  if 200 < value.data.length ∧ fmt ≠ Fmt.json then
    String.mk (value.data.take 200) ++ "..."
  else value

/-- Python `html.escape` with default quoting, character by character. -/
def htmlEscapeChar (c : Char) : List Char :=
  if c.toNat = 38 then "&amp;".data
  else if c.toNat = 60 then "&lt;".data
  else if c.toNat = 62 then "&gt;".data
  else if c.toNat = 34 then "&quot;".data
  else if c.toNat = 39 then "&#x27;".data
  else [c]

/-- Python `html.escape` with default quoting. -/
def htmlEscape (s : String) : String :=
  String.mk (s.data.foldr (fun c acc => htmlEscapeChar c ++ acc) [])

/-- The headline line built by `ReportGenerator._format_env_var`
(gui_manager.py lines 141–148) for each format. -/
def format_env_var_line (fmt : Fmt) (ev : EnvironmentVariableInfo) : String :=
  match fmt with
  | .md =>
      "- **`" ++ ev.name ++ "`** (`" ++ ev.scope ++ "`): `"
        ++ valDisplay .md ev.value ++ "`"
  | .html =>
      "<li><code>" ++ htmlEscape ev.name ++ "</code> (<i>" ++ htmlEscape ev.scope
        ++ "</i>): <code>" ++ htmlEscape (valDisplay .html ev.value) ++ "</code>"
  | fmt => ev.name ++ " (" ++ ev.scope ++ "): " ++ valDisplay fmt ev.value

/-- Modelled from the spec: `EnvironmentVariableInfo.to_dict` lives in the
missing `scan_logic.py`; per spec §6 each entity converts to a generic
key/value representation of its fields, so the dictionary used by
`generate_report_data_for_gui` (and hence by the JSON export) carries the
full untruncated value. -/
def envVarToDict (ev : EnvironmentVariableInfo) : List (String × String) :=
  [("name", ev.name), ("value", ev.value), ("scope", ev.scope)]

/-! ### Report exports (`ReportGenerator.export_to_*`) -/

/-- The exception classes relevant to the export paths. -/
inductive PyErr where
  | ioError
  | typeError
  | other
deriving DecidableEq

/-- The `try/except` skeleton shared by the four exporters: run the write
attempt; an exception of a caught class becomes `return False`, anything
else propagates. -/
def exportAttempt (caught : List PyErr) (attempt : Except PyErr Unit) :
    Except PyErr Bool :=
  match attempt with
  | .ok _ => .ok true
  | .error e => if caught.contains e then .ok false else .error e

/-- `ReportGenerator.export_to_txt` (gui_manager.py lines 195–231): write
the txt report and return True; `except IOError` logs and returns False.
The `try`-block body is abstracted to the outcome of writing the file. -/
def export_to_txt (attempt : Except PyErr Unit) : Except PyErr Bool :=
  exportAttempt [PyErr.ioError] attempt

/-- `ReportGenerator.export_to_markdown` (gui_manager.py lines 233–267):
same shape as the txt export. -/
def export_to_markdown (attempt : Except PyErr Unit) : Except PyErr Bool :=
  exportAttempt [PyErr.ioError] attempt

/-- `ReportGenerator.export_to_json` (gui_manager.py lines 269–279):
`except (IOError, TypeError)` — the serialization `TypeError` is caught
as well. -/
def export_to_json (attempt : Except PyErr Unit) : Except PyErr Bool :=
  exportAttempt [PyErr.ioError, PyErr.typeError] attempt

/-- `ReportGenerator.export_to_html` (gui_manager.py lines 281–369): same
shape as the txt export. -/
def export_to_html (attempt : Except PyErr Unit) : Except PyErr Bool :=
  exportAttempt [PyErr.ioError] attempt

/-! ## Configuration loading (`config_manager.load_config`) -/

/-- Read the content of a file from a flat path-to-content store (first
entry wins, so writing shadows). -/
def fileRead : List (String × String) → String → Option String
  | [], _ => none
  | (k, v) :: rest, p => if k = p then some v else fileRead rest p

/-- Write (or overwrite) a file. -/
def fileWrite (fs : List (String × String)) (p content : String) :
    List (String × String) :=
  (p, content) :: fs

/-- Remove a file. -/
def removeFile (fs : List (String × String)) (p : String) :
    List (String × String) :=
  fs.filter fun kv => kv.1 != p

/-- Modelled from the spec: `config_manager.load_config` is not in the
sources; its contract is pinned by `test_config_manager.py`.  A missing
configuration file is created with the default configuration; a file whose
content parses is returned as loaded; a file whose content fails to parse
as JSON is moved aside to `<path>.corrupt_backup` and the default
configuration is returned (and re-persisted), with no exception raised.
The JSON parser, serializer and default configuration are parameters. -/
def load_config {Config : Type} (parse : String → Option Config)
    (serialize : Config → String) (defaultConfig : Config)
    (fs : List (String × String)) (path : String) :
    Config × List (String × String) :=
  match fileRead fs path with
  | none => (defaultConfig, fileWrite fs path (serialize defaultConfig))
  | some content =>
      match parse content with
      | some cfg => (cfg, fs)
      | none =>
          let fs1 := fileWrite (removeFile fs path)
            (path ++ ".corrupt_backup") content
          (defaultConfig, fileWrite fs1 path (serialize defaultConfig))

/-! ## Theorems for claims C1 and C3 -/

/-- C1: whenever a command invocation's timeout expires, `_run_command`
kills the process exactly once, performs a second output-collection pass
(two `communicate` calls in total), returns the drained stdout, returns a
stderr equal to the `TimeoutExpired:` marker followed by the drained stderr,
and reports exit code `-1`; being a total function it never raises. -/
theorem run_command_timeout_spec (p : ProcSpec) (drainOut drainErr : String)
    (h : p.firstComm = .timedOut drainOut drainErr) :
    (run_command p).stdout = drainOut ∧
    (run_command p).stderr = "TimeoutExpired: " ++ drainErr ∧
    (run_command p).exitCode = -1 ∧
    (run_command p).kills = 1 ∧
    (run_command p).commCalls = 2 := by
  simp [run_command, h]

/-- Witness for C1 at the concrete process of `test_run_command_timeout`:
first `communicate` raises `TimeoutExpired`, the post-kill pass drains
`partial_out_after_kill` / `partial_err_after_kill`. -/
theorem run_command_timeout_spec_witness :
    (run_command ⟨.timedOut "partial_out_after_kill" "partial_err_after_kill"⟩).stdout
        = "partial_out_after_kill" ∧
    (run_command ⟨.timedOut "partial_out_after_kill" "partial_err_after_kill"⟩).stderr
        = "TimeoutExpired: " ++ "partial_err_after_kill" ∧
    (run_command ⟨.timedOut "partial_out_after_kill" "partial_err_after_kill"⟩).exitCode = -1 ∧
    (run_command ⟨.timedOut "partial_out_after_kill" "partial_err_after_kill"⟩).kills = 1 ∧
    (run_command ⟨.timedOut "partial_out_after_kill" "partial_err_after_kill"⟩).commCalls = 2 :=
  run_command_timeout_spec ⟨.timedOut "partial_out_after_kill" "partial_err_after_kill"⟩
    "partial_out_after_kill" "partial_err_after_kill" rfl

/-- C3: for every pair of version strings, update resolution compares
semantically (numeric dot-separated components, left to right) when both
strings parse semantically, and falls back to plain lexicographic string
comparison when either fails to parse; `is_update_available` is true iff
latest is strictly greater under the applicable comparison.  Determinism
for the same two inputs holds because the comparison is a pure function of
the two strings. -/
theorem is_update_available_spec (latest installed : String) :
    (∀ pl pi, parseSemVer latest = some pl → parseSemVer installed = some pi →
        is_update_available latest installed = verLt pi pl) ∧
    ((parseSemVer latest = none ∨ parseSemVer installed = none) →
        is_update_available latest installed = charsLt installed.data latest.data) := by
  constructor
  · intro pl pi hl hi
    simp [is_update_available, hl, hi]
  · intro h
    rcases h with h | h <;> simp [is_update_available, h]

/-- Witness for C3 on the spec's scenario: latest `2.40.0` vs installed
`2.39.0` yields an available update, while `2.40.0` vs `2.40.0` does not. -/
theorem is_update_available_spec_witness :
    is_update_available "2.40.0" "2.39.0" = true ∧
    is_update_available "2.40.0" "2.40.0" = false := by
  constructor
  · have h := (is_update_available_spec "2.40.0" "2.39.0").1 [2, 40, 0] [2, 39, 0]
      (by decide) (by decide)
    rw [h]; decide
  · have h := (is_update_available_spec "2.40.0" "2.40.0").1 [2, 40, 0] [2, 40, 0]
      (by decide) (by decide)
    rw [h]; decide

/-! ## Theorems for claims C2 and C7 -/

/-- C2: for every path-list variable analyzed by
`collect_environment_variables`, an entry that does not exist on disk
yields one `does not exist` issue per occurrence, and a value repeating an
earlier entry yields a `duplicated` issue on the second and later
occurrences only (occurrences minus one); existing non-duplicated entries
and first occurrences yield no such issues (both counts are zero there). -/
theorem path_list_var_issue_counts (ex : String → Bool) (name value e : String)
    (h : isPathListVar name = true) :
    ((mkEnvVarInfo ex (name, value)).issues.count (.pathEntryMissing e)
        = if ex e then 0 else (pathEntries value).count e) ∧
    ((mkEnvVarInfo ex (name, value)).issues.count (.pathEntryDuplicated e)
        = (pathEntries value).count e - 1) := by
  constructor
  · simp only [mkEnvVarInfo, h, if_pos]
    exact count_pathEntryMissing ex e (pathEntries value) []
  · simp only [mkEnvVarInfo, h, if_pos]
    have := count_pathEntryDuplicated ex e (pathEntries value) []
    simpa using this

/-- Witness for C2 on the spec §8 scenario
`PATH=/fake/bin:/duplicate/path:/duplicate/path:/missing` with only
`/fake/bin` and `/duplicate/path` existing: one missing-entry issue for
`/missing`, one duplicate issue for the second `/duplicate/path`, and no
issues for `/fake/bin` or the first `/duplicate/path`. -/
theorem path_list_var_issue_counts_witness :
    ((mkEnvVarInfo envExC
        ("PATH", "/fake/bin:/duplicate/path:/duplicate/path:/missing")).issues.count
      (.pathEntryMissing "/missing") = 1) ∧
    ((mkEnvVarInfo envExC
        ("PATH", "/fake/bin:/duplicate/path:/duplicate/path:/missing")).issues.count
      (.pathEntryDuplicated "/duplicate/path") = 1) ∧
    ((mkEnvVarInfo envExC
        ("PATH", "/fake/bin:/duplicate/path:/duplicate/path:/missing")).issues.count
      (.pathEntryMissing "/fake/bin") = 0) ∧
    ((mkEnvVarInfo envExC
        ("PATH", "/fake/bin:/duplicate/path:/duplicate/path:/missing")).issues.count
      (.pathEntryDuplicated "/fake/bin") = 0) := by
  refine ⟨?_, ?_, ?_, ?_⟩
  · have h := (path_list_var_issue_counts envExC "PATH"
      "/fake/bin:/duplicate/path:/duplicate/path:/missing" "/missing" (by decide)).1
    rw [h]; decide
  · have h := (path_list_var_issue_counts envExC "PATH"
      "/fake/bin:/duplicate/path:/duplicate/path:/missing" "/duplicate/path" (by decide)).2
    rw [h]; decide
  · have h := (path_list_var_issue_counts envExC "PATH"
      "/fake/bin:/duplicate/path:/duplicate/path:/missing" "/fake/bin" (by decide)).1
    rw [h]; decide
  · have h := (path_list_var_issue_counts envExC "PATH"
      "/fake/bin:/duplicate/path:/duplicate/path:/missing" "/fake/bin" (by decide)).2
    rw [h]; decide

/-- C7: an environment variable whose name follows the `*_HOME` suffix
convention is always recorded with its full value; when the value is
non-empty and the referenced path does not exist the analyzer attaches the
(single) existence issue, when the path exists (in particular as a
directory) no issue is attached, and when the value is empty the variable
is still recorded but carries no existence issue. -/
theorem home_var_issue_spec (ex : String → Bool) (name value : String)
    (hh : strEndsWith name "_HOME" = true) :
    (mkEnvVarInfo ex (name, value)).name = name ∧
    (mkEnvVarInfo ex (name, value)).value = value ∧
    (value ≠ "" → ex value = false →
        (mkEnvVarInfo ex (name, value)).issues = [.homePathMissing name value]) ∧
    (ex value = true → (mkEnvVarInfo ex (name, value)).issues = []) ∧
    (value = "" → (mkEnvVarInfo ex (name, value)).issues = []) := by
  have hne : isPathListVar name = false := by
    by_cases hp : name = "PATH"
    · subst hp; exact absurd hh (by decide)
    · simp [isPathListVar, hp]
  refine ⟨rfl, rfl, ?_, ?_, ?_⟩
  · intro hv hex
    simp [mkEnvVarInfo, hne, hh, analyzeHomeVar, hv, hex]
  · intro hex
    simp [mkEnvVarInfo, hne, hh, analyzeHomeVar, hex]
  · intro hv
    simp [mkEnvVarInfo, hne, hh, analyzeHomeVar, hv]

/-- Witness for C7 on the variables of
`test_collect_environment_variables`: `FAKE_JAVA_HOME=/very/fake/java/home`
(nonexistent) gets the existence issue, `MY_HOME=/fake/home` (an existing
directory) gets none, and an empty-valued `*_HOME` variable gets none. -/
theorem home_var_issue_spec_witness :
    (mkEnvVarInfo envExC ("FAKE_JAVA_HOME", "/very/fake/java/home")).issues
        = [.homePathMissing "FAKE_JAVA_HOME" "/very/fake/java/home"] ∧
    (mkEnvVarInfo envExC ("MY_HOME", "/fake/home")).issues = [] ∧
    (mkEnvVarInfo envExC ("FAKE_JAVA_HOME", "")).issues = [] := by
  refine ⟨?_, ?_, ?_⟩
  · exact (home_var_issue_spec envExC "FAKE_JAVA_HOME" "/very/fake/java/home"
      (by decide)).2.2.1 (by decide) (by decide)
  · exact (home_var_issue_spec envExC "MY_HOME" "/fake/home"
      (by decide)).2.2.2.1 (by decide)
  · exact (home_var_issue_spec envExC "FAKE_JAVA_HOME" ""
      (by decide)).2.2.2.2 rfl

/-! ## Theorem for claim C4 -/

/-- C4: for every executable name not yet cached, `_find_executable_in_path`
tests the PATH directories in order and returns the symlink-resolved path
of the first entry that is a regular file executable by the current user
(not-found when no directory matches), and it memoizes the result —
including not-found — under the name, so that a second lookup of the same
name returns the identical result and cache with zero filesystem probes. -/
theorem find_executable_spec (fs : FSModel) (dirs : List String)
    (cache : List (String × Option String)) (name : String)
    (h : cacheFind cache name = none) :
    (find_executable_in_path fs dirs cache name).result
      = (dirs.find? fun d =>
            fs.isFile (joinPath d name) && fs.isExec (joinPath d name)).map
          (fun d => fs.resolveLink (joinPath d name)) ∧
    find_executable_in_path fs dirs
        (find_executable_in_path fs dirs cache name).cache name
      = ⟨(find_executable_in_path fs dirs cache name).result,
         (find_executable_in_path fs dirs cache name).cache, 0⟩ := by
  constructor
  · simp [find_executable_in_path, h, searchPathDirs_eq_findFirst]
  · simp [find_executable_in_path, h, cacheFind]

/-- The filesystem mocked by `test_find_executable_in_path`: only
`/fake/bin/python` is a regular file, everything is executable, and
symlink resolution is the identity. -/
def fsPython : FSModel where
  isFile p := p = "/fake/bin/python"
  isExec _ := true
  resolveLink p := p

/-- Witness for C4 on the mocked filesystem of
`test_find_executable_in_path` with `PATH=/fake/bin:/usr/fake/bin`:
`python` resolves to `/fake/bin/python`, the repeated lookup is answered
from the cache with zero probes, and `nonexistent` is not found. -/
theorem find_executable_spec_witness :
    (find_executable_in_path fsPython ["/fake/bin", "/usr/fake/bin"] [] "python").result
        = some "/fake/bin/python" ∧
    find_executable_in_path fsPython ["/fake/bin", "/usr/fake/bin"]
        (find_executable_in_path fsPython ["/fake/bin", "/usr/fake/bin"] [] "python").cache
        "python"
      = ⟨(find_executable_in_path fsPython ["/fake/bin", "/usr/fake/bin"] [] "python").result,
         (find_executable_in_path fsPython ["/fake/bin", "/usr/fake/bin"] [] "python").cache,
         0⟩ ∧
    (find_executable_in_path fsPython ["/fake/bin", "/usr/fake/bin"] [] "nonexistent").result
        = none := by
  have h := find_executable_spec fsPython ["/fake/bin", "/usr/fake/bin"] [] "python" rfl
  have h2 := find_executable_spec fsPython ["/fake/bin", "/usr/fake/bin"] [] "nonexistent" rfl
  refine ⟨?_, h.2, ?_⟩
  · rw [h.1]; decide
  · rw [h2.1]; decide

/-! ## Theorem for claim C5 -/

/-- C5: for the `python` catalog entry, when the candidate executable
`python3` resolves and the version query yields the version extracted by
the entry's pattern, `identify_tools` produces exactly one
DetectedComponent whose version is that extracted version, whose
`executable_path` is the resolved path, and whose `category` and
`matched_db_name` are the values returned by the categorizer. -/
theorem identify_tools_python_scenario (findExe : String → Option String)
    (getVersion : String → List String → String → String)
    (categorize : String → String → Option String × Option String)
    (p ver : String) (cat dbName : Option String)
    (h1 : findExe "python3" = some p)
    (h2 : getVersion p ["--version"] "Python\\s+([0-9.]+)" = ver)
    (h3 : categorize "Python" p = (cat, dbName)) :
    identify_tools findExe getVersion categorize [pythonEntry]
      = [{ id := "python", name := "Python", category := cat, version := ver,
           path := p, executable_path := p, matched_db_name := dbName }] := by
  simp [identify_tools, pythonEntry, h1, h2, h3]

/-- Witness for C5, the concrete scenario of
`test_identify_tools_python_example`: `python3` resolves to
`/fake/bin/python3`, its `--version` output `Python 3.9.5` matches the
pattern with first capture group `3.9.5`, and the categorizer answers
`("Language", "Python 3")`. -/
theorem identify_tools_python_scenario_witness :
    identify_tools
        (fun n => if n = "python3" then some "/fake/bin/python3" else none)
        (fun p _ _ => get_version_from_command (p = "/fake/bin/python3")
          ("Python 3.9.5", "", 0) extractPyVersion)
        (fun n p => if n = "Python" && p = "/fake/bin/python3"
          then (some "Language", some "Python 3") else (none, none))
        [pythonEntry]
      = [{ id := "python", name := "Python", category := some "Language",
           version := "3.9.5", path := "/fake/bin/python3",
           executable_path := "/fake/bin/python3",
           matched_db_name := some "Python 3" }] :=
  identify_tools_python_scenario
    (fun n => if n = "python3" then some "/fake/bin/python3" else none)
    (fun p _ _ => get_version_from_command (p = "/fake/bin/python3")
      ("Python 3.9.5", "", 0) extractPyVersion)
    (fun n p => if n = "Python" && p = "/fake/bin/python3"
      then (some "Language", some "Python 3") else (none, none))
    "/fake/bin/python3" "3.9.5" (some "Language") (some "Python 3")
    (by decide) (by decide) (by decide)

/-! ## Theorems for claim C6 -/

/-- Two distinct issues sharing the full sort key
`(severity, category, description)` but differing in `component_id`. -/
def issueDupA : ScanIssue :=
  ⟨"Duplicate entry /bin", "Info", "Environment", some "comp_a", none⟩

/-- Companion of `issueDupA` with the other `component_id`. -/
def issueDupB : ScanIssue :=
  ⟨"Duplicate entry /bin", "Info", "Environment", some "comp_b", none⟩

/-- Counterexample to C6 as stated: the two production orders of the same
two issues — equal on `(severity, category, description)` but distinct in
`component_id` — reach `ReportGenerator` as different sorted lists, because
Python's `sorted` is stable and preserves production order among equal
keys.  So the sorted output is not independent of production order. -/
theorem report_sort_order_dependent :
    ([issueDupA, issueDupB]).Perm [issueDupB, issueDupA] ∧
    (mkReportGenerator [] [] [issueDupA, issueDupB]).map
        ReportGeneratorState.issues
      ≠ (mkReportGenerator [] [] [issueDupB, issueDupA]).map
        ReportGeneratorState.issues := by
  constructor
  · exact List.Perm.swap issueDupB issueDupA []
  · have hkey : issueKey issueDupA = issueKey issueDupB := rfl
    have hle1 : keyLe issueKey issueDupA issueDupB = true := by
      simp [keyLe, hkey]
    have hle2 : keyLe issueKey issueDupB issueDupA = true := by
      simp [keyLe, hkey]
    have hA : (mkReportGenerator [] [] [issueDupA, issueDupB]).map
        ReportGeneratorState.issues = .ok [issueDupA, issueDupB] := by
      simp [mkReportGenerator, pySortedP, pySorted, insertStable, hle1,
        Except.map]
    have hB : (mkReportGenerator [] [] [issueDupB, issueDupA]).map
        ReportGeneratorState.issues = .ok [issueDupB, issueDupA] := by
      simp [mkReportGenerator, pySortedP, pySorted, insertStable, hle2,
        Except.map]
    rw [hA, hB]
    intro hEq
    have h2 := Except.ok.inj hEq
    have h3 := (List.cons.inj h2).1
    have h4 : some "comp_a" = some "comp_b" :=
      congrArg ScanIssue.component_id h3
    exact absurd (Option.some.inj h4) (by decide)

theorem mkReportGenerator_eq (comps : List DetectedComponent)
    (envs : List EnvironmentVariableInfo) (issues : List ScanIssue) :
    mkReportGenerator comps envs issues
      = (pySortedP componentKeyLt comps).map fun sc =>
          ⟨sc, pySorted envVarKey envs, pySorted issueKey issues⟩ := by
  unfold mkReportGenerator
  rcases hs : pySortedP componentKeyLt comps with e | sc <;> rfl

theorem mkScanData_eq (comps : List DetectedComponent)
    (envs : List EnvironmentVariableInfo) (issues : List ScanIssue) :
    mkScanData comps envs issues
      = (pySortedP componentKeyLt comps).map fun sc =>
          ⟨sc, pySorted envVarKey envs, pySorted issueKey issues⟩ := by
  unfold mkScanData
  rcases hs : pySortedP componentKeyLt comps with e | sc <;> rfl

/-- C6 (amended): when the `ReportGenerator` is constructed successfully,
each of the three lists is a permutation of the produced items sorted by
its key — DetectedComponent by the `(category, name, version)` tuple
(sortedness phrased through the source's own tuple comparison),
EnvironmentVariableInfo by `name`, ScanIssue by
`(severity, category, description)`.  Construction succeeds whenever the
component categories are all strings or all `None`, and raises the tuple
comparison's `TypeError` when a `None` category is mixed with string
categories.  `ScanData` applies the identical sorts, and the output is
independent of the production order whenever no two items share a sort key
(ties keep production order, by stability). -/
theorem report_lists_sorted_spec (comps : List DetectedComponent)
    (envs : List EnvironmentVariableInfo) (issues : List ScanIssue) :
    (∀ rg, mkReportGenerator comps envs issues = .ok rg →
      (rg.detected_components.Perm comps ∧
        rg.detected_components.Pairwise
          fun a b => componentKeyLt b a = .ok false) ∧
      (rg.environment_variables.Perm envs ∧
        rg.environment_variables.Pairwise
          fun a b => envVarKey a ≤ envVarKey b) ∧
      (rg.issues.Perm issues ∧
        rg.issues.Pairwise fun a b => issueKey a ≤ issueKey b)) ∧
    (((∀ c ∈ comps, c.category.isSome) ∨ (∀ c ∈ comps, c.category = none)) →
      ∃ rg, mkReportGenerator comps envs issues = .ok rg) ∧
    ((∃ u ∈ comps, u.category = none) → (∃ v ∈ comps, v.category.isSome) →
      mkReportGenerator comps envs issues = .error ()) ∧
    (∀ comps2, comps.Perm comps2 → comps.Pairwise compKeyDistinct →
      mkReportGenerator comps2 envs issues
        = mkReportGenerator comps envs issues) ∧
    (∀ envs2, envs.Perm envs2 →
      (envs.Pairwise fun a b => envVarKey a ≠ envVarKey b) →
      mkReportGenerator comps envs2 issues
        = mkReportGenerator comps envs issues) ∧
    (∀ issues2, issues.Perm issues2 →
      (issues.Pairwise fun a b => issueKey a ≠ issueKey b) →
      mkReportGenerator comps envs issues2
        = mkReportGenerator comps envs issues) ∧
    ((mkScanData comps envs issues).map
        (fun sd => (sd.detected_components, sd.environment_variables, sd.issues))
      = (mkReportGenerator comps envs issues).map
        (fun rg => (rg.detected_components, rg.environment_variables,
          rg.issues))) := by
  refine ⟨?_, ?_, ?_, ?_, ?_, ?_, ?_⟩
  · intro rg hok
    rw [mkReportGenerator_eq] at hok
    rcases hs : pySortedP componentKeyLt comps with e | sc
    · rw [hs] at hok
      exact absurd hok (by simp [Except.map])
    · rw [hs] at hok
      simp only [Except.map, Except.ok.injEq] at hok
      subst hok
      exact ⟨pySortedP_ok_spec comps sc hs,
        ⟨perm_pySorted envVarKey envs, sorted_pySorted envVarKey envs⟩,
        ⟨perm_pySorted issueKey issues, sorted_pySorted issueKey issues⟩⟩
  · rintro (hall | hall)
    · exact ⟨_, by
        rw [mkReportGenerator_eq, pySortedP_ok_allSome comps hall]; rfl⟩
    · exact ⟨_, by
        rw [mkReportGenerator_eq, pySortedP_ok_allNone comps hall]; rfl⟩
  · intro hnone hsome
    rw [mkReportGenerator_eq, pySortedP_error_of_mixed comps hnone hsome]
    rfl
  · intro comps2 hp hd
    have hd2 : comps2.Pairwise compKeyDistinct :=
      (hp.pairwise_iff fun hxy hyx =>
        hxy ⟨hyx.1.symm, hyx.2.1.symm, hyx.2.2.symm⟩).mp hd
    rw [mkReportGenerator_eq, mkReportGenerator_eq,
      pySortedP_eq_of_perm hp.symm hd2]
  · intro envs2 hp hd
    rw [mkReportGenerator_eq, mkReportGenerator_eq,
      pySorted_eq_of_perm envVarKey hp hd]
  · intro issues2 hp hd
    rw [mkReportGenerator_eq, mkReportGenerator_eq,
      pySorted_eq_of_perm issueKey hp hd]
  · rw [mkScanData_eq, mkReportGenerator_eq]
    rcases hs : pySortedP componentKeyLt comps with e | sc <;> simp [Except.map]

/-- The two distinct-key issues of `test_report_generator`. -/
def issueCritC : ScanIssue :=
  ⟨"Critical system problem", "Critical", "System", none, none⟩

/-- Warning companion of `issueCritC` (distinct sort key). -/
def issueWarnC : ScanIssue :=
  ⟨"Config warning for Git", "Warning", "Configuration", some "git_2.30_fake", none⟩

/-- Witness for the amended C6 on the issues of `test_report_generator`:
construction succeeds (no components, so no category comparison), the
issue list is the sorted permutation `[Critical, Warning]` of the
production order, and for these distinct-key issues the two production
orders build identical generators. -/
theorem report_lists_sorted_spec_witness :
    mkReportGenerator [] [] [issueCritC, issueWarnC]
      = mkReportGenerator [] [] [issueWarnC, issueCritC] ∧
    [issueCritC, issueWarnC].Perm [issueWarnC, issueCritC] ∧
    ([issueCritC, issueWarnC].Pairwise fun a b => issueKey a ≤ issueKey b) ∧
    mkReportGenerator [] [] [issueWarnC, issueCritC]
      = .ok ⟨[], [], [issueCritC, issueWarnC]⟩ := by
  have h := report_lists_sorted_spec [] [] [issueWarnC, issueCritC]
  have hlt : ¬ ("Warning" < "Critical") := by
    rw [String.lt_iff_toList_lt]
    decide
  have hne : "Warning" ≠ "Critical" := by decide
  have hW : ¬ (issueKey issueWarnC ≤ issueKey issueCritC) := by
    intro hcon
    rcases (Prod.Lex.le_iff _ _).mp hcon with h1 | ⟨h1, _⟩
    · exact hlt h1
    · exact hne h1
  have hle : keyLe issueKey issueWarnC issueCritC = false := decide_eq_false hW
  have h0 : mkReportGenerator [] [] [issueWarnC, issueCritC]
      = .ok ⟨[], [], [issueCritC, issueWarnC]⟩ := by
    simp [mkReportGenerator, pySortedP, pySorted, insertStable, hle]
  have ha := h.1 ⟨[], [], [issueCritC, issueWarnC]⟩ h0
  exact ⟨h.2.2.2.2.2.1 [issueCritC, issueWarnC]
      (List.Perm.swap issueCritC issueWarnC []) (by decide),
    ha.2.2.1, ha.2.2.2, h0⟩

/-! ## Theorem for claim C8 -/

/-- C8: the stored value of an environment variable, and the value the
JSON export reads through `to_dict`, are never truncated; the txt, md and
html renderings truncate a value longer than 200 characters to its
200-character prefix followed by `...` and leave shorter values intact —
truncation happens only inside `_format_env_var`, never in the data
model. -/
theorem env_value_truncation_spec (ev : EnvironmentVariableInfo) :
    (("value", ev.value) ∈ envVarToDict ev) ∧
    valDisplay Fmt.json ev.value = ev.value ∧
    (∀ fmt, fmt ≠ Fmt.json →
      (200 < ev.value.data.length →
        valDisplay fmt ev.value = String.mk (ev.value.data.take 200) ++ "...") ∧
      (ev.value.data.length ≤ 200 → valDisplay fmt ev.value = ev.value)) ∧
    format_env_var_line Fmt.txt ev
      = ev.name ++ " (" ++ ev.scope ++ "): " ++ valDisplay Fmt.txt ev.value := by
  refine ⟨by simp [envVarToDict], by simp [valDisplay], ?_, rfl⟩
  intro fmt hfmt
  constructor
  · intro hlen
    rw [valDisplay, if_pos ⟨hlen, hfmt⟩]
  · intro hlen
    rw [valDisplay, if_neg]
    rintro ⟨h1, _⟩
    omega

/-- Witness for C8 on a 201-character value: every non-json rendering
shows the 200-character prefix plus `...`, while the json path and the
data-model dictionary keep the value whole. -/
theorem env_value_truncation_spec_witness :
    valDisplay Fmt.txt (String.mk (List.replicate 201 'a'))
        = String.mk (List.replicate 200 'a') ++ "..." ∧
    valDisplay Fmt.json (String.mk (List.replicate 201 'a'))
        = String.mk (List.replicate 201 'a') ∧
    ("value", String.mk (List.replicate 201 'a')) ∈
      envVarToDict ⟨"LONG_VAR", String.mk (List.replicate 201 'a'),
        "active_session", []⟩ := by
  have h := env_value_truncation_spec
    ⟨"LONG_VAR", String.mk (List.replicate 201 'a'), "active_session", []⟩
  refine ⟨?_, h.2.1, h.1⟩
  have h1 := (h.2.2.1 Fmt.txt (by decide)).1 (by
    show (200 : ℕ) < (List.replicate 201 'a').length
    rw [List.length_replicate]
    norm_num)
  have h2 : (String.mk (List.replicate 201 'a')).data.take 200
      = List.replicate 200 'a' := by
    show (List.replicate 201 'a').take 200 = List.replicate 200 'a'
    rw [List.take_replicate]
    norm_num
  rw [h1, h2]

/-! ## Theorem for claim C9 -/

/-- C9: each export operation returns True exactly when the report file is
written; a write failing with an I/O error — and, for the JSON export, a
serialization TypeError — yields False without raising (an `.ok` result,
never a propagated `.error`). -/
theorem export_result_spec (attempt : Except PyErr Unit) :
    (attempt = .ok () →
      export_to_txt attempt = .ok true ∧
      export_to_markdown attempt = .ok true ∧
      export_to_json attempt = .ok true ∧
      export_to_html attempt = .ok true) ∧
    (attempt = .error .ioError →
      export_to_txt attempt = .ok false ∧
      export_to_markdown attempt = .ok false ∧
      export_to_json attempt = .ok false ∧
      export_to_html attempt = .ok false) ∧
    (attempt = .error .typeError → export_to_json attempt = .ok false) := by
  refine ⟨?_, ?_, ?_⟩ <;> rintro rfl <;>
    simp [export_to_txt, export_to_markdown, export_to_json, export_to_html,
      exportAttempt]

/-- Witness for C9 at concrete write outcomes: a successful write returns
True, an I/O failure returns False for the txt export, and a
serialization TypeError returns False for the JSON export. -/
theorem export_result_spec_witness :
    export_to_txt (.ok ()) = .ok true ∧
    export_to_txt (.error .ioError) = .ok false ∧
    export_to_json (.error .typeError) = .ok false :=
  ⟨((export_result_spec (.ok ())).1 rfl).1,
    ((export_result_spec (.error .ioError)).2.1 rfl).1,
    (export_result_spec (.error .typeError)).2.2 rfl⟩

/-! ## Theorem for claim C10 -/

/-- C10: for every on-disk configuration file whose content fails to parse
as JSON, `load_config` returns the default configuration instead of
raising, and the corrupted content is preserved on disk under the original
name with a `.corrupt_backup` suffix appended. -/
theorem load_config_corrupt_spec {Config : Type} (parse : String → Option Config)
    (serialize : Config → String) (defaultConfig : Config)
    (fs : List (String × String)) (path content : String)
    (hread : fileRead fs path = some content)
    (hparse : parse content = none) :
    (load_config parse serialize defaultConfig fs path).1 = defaultConfig ∧
    fileRead (load_config parse serialize defaultConfig fs path).2
        (path ++ ".corrupt_backup")
      = some content := by
  have hne : ¬ (path = path ++ ".corrupt_backup") := by
    intro h
    have hlen := congrArg String.length h
    rw [String.length_append] at hlen
    have h15 : (".corrupt_backup" : String).length = 15 := rfl
    omega
  refine ⟨?_, ?_⟩
  · simp [load_config, hread, hparse]
  · simp [load_config, hread, hparse, fileWrite, fileRead, hne]

/-- Witness for C10 on the concrete situation of
`test_load_config_handles_json_decode_error`: a config file holding the
unparseable text written by the test. -/
theorem load_config_corrupt_spec_witness :
    (load_config (fun _ => (none : Option Nat)) (fun _ => "")
        0 [("config.json", "\x7bcorrupted_json: ")] "config.json").1 = 0 ∧
    fileRead (load_config (fun _ => (none : Option Nat)) (fun _ => "")
        0 [("config.json", "\x7bcorrupted_json: ")] "config.json").2
        ("config.json" ++ ".corrupt_backup")
      = some "\x7bcorrupted_json: " :=
  load_config_corrupt_spec (fun _ => (none : Option Nat)) (fun _ => "") 0
    [("config.json", "\x7bcorrupted_json: ")] "config.json"
    "\x7bcorrupted_json: " rfl rfl

end DevEnvAudit
